import Mathlib

/-
  Verification development for the request-dispatch layer in
  src/lib/api-client.ts (singleton fetch-based HTTP client).

  The definitions below are a shallow embedding of that module:
  JS objects used as header maps become association lists with
  last-write-wins merge, JS values become the inductive JsVal,
  promises raced against the timeout guard become an explicit
  settle-time model, and the retry loop becomes structural
  recursion over a script of per-invocation transport behaviours.
-/

set_option maxHeartbeats 1000000

namespace ApiClientModel

/- ### JS string helpers -/

/-- Chars of pat are a leading segment of hay (char-by-char). -/
def hasPrefixChars : List Char → List Char → Bool
  | [], _ => true
  | _ :: _, [] => false
  | p :: ps, h :: hs => p == h && hasPrefixChars ps hs

/-- Chars of pat occur contiguously somewhere in hay. -/
def hasInfixChars (pat : List Char) : List Char → Bool
  | [] => pat.isEmpty
  | h :: hs => hasPrefixChars pat (h :: hs) || hasInfixChars pat hs

/-- Model of JS String.prototype.includes, written ct.includes(...) in the source. -/
def jsIncludes (s pat : String) : Bool := hasInfixChars pat.toList s.toList

/-- Model of .replace(/\/+$/, '') at api-client.ts:127 — drop every trailing slash. -/
def stripTrailingSlashes (s : String) : String :=
  ((s.toList.reverse.dropWhile (fun c => c == '/')).reverse).asString

/-- Whether the final character of the string is a path separator. -/
def endsWithSlash (s : String) : Bool :=
  match s.toList.getLast? with
  | some c => c == '/'
  | none => false

/- ### Origin resolution (api-client.ts:120-128, resolveBaseUrl)

   const serverBase = process.env.API_BASE_URL?.trim();
   const clientBase = process.env.NEXT_PUBLIC_API_BASE_URL?.trim();
   const chosen = (isServer() ? serverBase : clientBase) || '';
   return chosen.replace(/\/+$/, '');

   The environment variables are the two Option String inputs; isServer()
   is the Bool input.  `x || ''` maps undefined and the empty string to '',
   which Option.getD reproduces because '' is the only falsy string. -/

def resolveBaseUrl (isServerSide : Bool) (serverBase clientBase : Option String) : String :=
  let sb := serverBase.map String.trim
  let cb := clientBase.map String.trim
  let chosen := (if isServerSide then sb else cb).getD ""
  stripTrailingSlashes chosen

/- ### JS values and JSON -/

/-- Inductive model of a JS value (as produced by res.json() or supplied as a
    structured request body). Numbers are modelled as integers. -/
inductive JsVal where
  | nullVal : JsVal
  | boolVal : Bool → JsVal
  | num : Int → JsVal
  | str : String → JsVal
  | arr : List JsVal → JsVal
  | obj : List (String × JsVal) → JsVal
  deriving Repr

/-- First field of the object list with the given key (JS property lookup). -/
def lookupField (fields : List (String × JsVal)) (k : String) : Option JsVal :=
  (fields.find? (fun p => p.1 == k)).map (fun p => p.2)

def hexDigit (n : Nat) : Char :=
  if n < 10 then Char.ofNat (48 + n) else Char.ofNat (87 + n)

/-- JSON string escaping as JSON.stringify performs it. -/
def escapeJsonChar (c : Char) : String :=
  if c == '"' then "\\\""
  else if c == '\\' then "\\\\"
  else if c == '\n' then "\\n"
  else if c == '\r' then "\\r"
  else if c == '\t' then "\\t"
  else if c == Char.ofNat 8 then "\\b"
  else if c == Char.ofNat 12 then "\\f"
  else if c.toNat < 32 then
    "\\u00" ++ ([hexDigit (c.toNat / 16), hexDigit (c.toNat % 16)].asString)
  else c.toString

def quoteJson (s : String) : String :=
  "\"" ++ String.join (s.toList.map escapeJsonChar) ++ "\""

mutual

/-- Model of JSON.stringify on JsVal (api-client.ts:274). -/
def jsonStringify : JsVal → String
  | JsVal.nullVal => "null"
  | JsVal.boolVal true => "true"
  | JsVal.boolVal false => "false"
  | JsVal.num n => toString n
  | JsVal.str s => quoteJson s
  | JsVal.arr xs => "[" ++ jsonStringifyList xs ++ "]"
  | JsVal.obj fs => "\x7b" ++ jsonStringifyFields fs ++ "\x7d"

def jsonStringifyList : List JsVal → String
  | [] => ""
  | [x] => jsonStringify x
  | x :: y :: xs => jsonStringify x ++ "," ++ jsonStringifyList (y :: xs)

def jsonStringifyFields : List (String × JsVal) → String
  | [] => ""
  | [(k, v)] => quoteJson k ++ ":" ++ jsonStringify v
  | (k, v) :: f :: fs => quoteJson k ++ ":" ++ jsonStringify v ++ "," ++ jsonStringifyFields (f :: fs)

end

/- ### Header maps

   Header collections are JS plain objects: string keys (case-sensitive),
   object spread merges with later entries overriding earlier ones, and
   the delete operator removes a key.  An association list with
   set/get/delete mirrors that. -/

def setKey : List (String × String) → String → String → List (String × String)
  | [], k, v => [(k, v)]
  | p :: rest, k, v => if p.1 = k then (k, v) :: rest else p :: setKey rest k v

def getKey (m : List (String × String)) (k : String) : Option String :=
  (m.find? (fun p => p.1 == k)).map (fun p => p.2)

/-- Model of the JS delete operator on the header object (api-client.ts:270). -/
def delKey (m : List (String × String)) (k : String) : List (String × String) :=
  m.filter (fun p => p.1 != k)

/-- Model of object spread { ...a, ...b } on header records. -/
def mergeHeaders (a b : List (String × String)) : List (String × String) :=
  b.foldl (fun acc p => setKey acc p.1 p.2) a

/-- Value of the last entry of the list with the given key, if any:
    what a JS record built from the list would hold for that key. -/
def lastVal : List (String × String) → String → Option String
  | [], _ => none
  | p :: t, k =>
    match lastVal t k with
    | some v => some v
    | none => if p.1 = k then some p.2 else none

/-- ASCII lower-casing of one character. -/
def lowerChar (c : Char) : Char :=
  if 65 ≤ c.toNat ∧ c.toNat ≤ 90 then Char.ofNat (c.toNat + 32) else c

/-- ASCII-case-insensitive string comparison. -/
def strEqCI (a b : String) : Bool :=
  (a.toList.map lowerChar) == (b.toList.map lowerChar)

/-- A header entry whose name matches up to letter case (HTTP header names are
    case-insensitive, and the Headers object used by fetch treats them so). -/
def hasHeaderCI (hs : List (String × String)) (k : String) : Bool :=
  hs.any (fun p => strEqCI p.1 k)

/- ### Errors

   Thrown values are modelled as JS Error-shaped objects: a name, a message,
   an optional numeric status and an optional data payload (the latter two
   are set only by the ApiError class, api-client.ts:65-74). -/

/-- The value of the local variable data in the non-2xx branch
    (api-client.ts:296-298): undefined on decode failure, a JS value when
    the body was declared JSON, the raw text otherwise. -/
inductive DataVal where
  | undef : DataVal
  | jsonVal : JsVal → DataVal
  | strVal : String → DataVal
  deriving Repr

structure ErrObj where
  name : String
  message : String
  status : Option Int
  payload : Option DataVal
  deriving Repr

/-- Model of the ApiError constructor (api-client.ts:65-74): sets name,
    message, the numeric status and the data payload. -/
def mkApiError (message : String) (status : Nat) (data : DataVal) : ErrObj :=
  ⟨"ApiError", message, some (status : Int), some data⟩

/-- Model of isApiErrorLike (api-client.ts:83-91).  An instance of the
    ApiError class always has name "ApiError" and a numeric status (the
    constructor sets both), so the structural arm of the guard subsumes
    the instanceof arm for every value the model can represent. -/
def isApiErrorLike (e : ErrObj) : Bool :=
  e.name == "ApiError" && e.status.isSome

/-- Model of isAbortError (api-client.ts:97-101). -/
def isAbortError (e : ErrObj) : Bool :=
  e.name == "AbortError"

/- ### Responses

   A completed transport response.  contentType is the coalesced
   res.headers.get('content-type') || '' (absent header modelled as "").
   The one-shot body readers json()/text()/blob()/formData() belong to the
   transport; each is modelled as an Option field, none meaning that the
   reader rejects (for example res.json() on a malformed body).  Blob and
   form results are opaque and carried as numeric identities. -/

structure Resp where
  status : Nat
  statusText : String
  contentType : String
  jsonBody : Option JsVal
  textBody : Option String
  blobBody : Option Nat
  formBody : Option Nat
  deriving Repr

/-- res.ok per the fetch specification: status in the 200-299 range. -/
def respOk (res : Resp) : Bool :=
  200 ≤ res.status && res.status ≤ 299

/-- A decoded success payload, tagged by the reader that produced it. -/
inductive Parsed where
  | jsonV : JsVal → Parsed
  | blobV : Nat → Parsed
  | formV : Nat → Parsed
  | textV : String → Parsed
  deriving Repr

/-- Binary media families recognised at api-client.ts (enhanced variant)
    parseResponse lines 265-271. -/
def isBinaryCT (ct : String) : Bool :=
  jsIncludes ct "application/octet-stream" || jsIncludes ct "image/" ||
  jsIncludes ct "video/" || jsIncludes ct "audio/" || jsIncludes ct "application/pdf"

/-- Model of ApiClient.parseResponse (enhanced variant, lines 256-282):
    pick the body reader from the declared content type, JSON first, then
    the binary families, then multipart form data, then text.  none means
    the chosen reader rejected. -/
def parseResponse (res : Resp) : Option Parsed :=
  let ct := res.contentType
  if jsIncludes ct "application/json" then res.jsonBody.map Parsed.jsonV
  else if isBinaryCT ct then res.blobBody.map Parsed.blobV
  else if jsIncludes ct "multipart/form-data" then res.formBody.map Parsed.formV
  else res.textBody.map Parsed.textV

/-- The thrown value when a success-path body reader rejects
    (for example await res.json() on invalid JSON).  The concrete error
    object is produced by the transport; the model only needs it to be
    neither ApiError-shaped nor an abort. -/
def readerError : ErrObj :=
  ⟨"SyntaxError", "Unexpected token in body", none, none⟩

/- ### Non-2xx payload and message derivation (api-client.ts:292-317) -/

/-- The data variable: JSON decode (failures swallowed to undefined) when the
    content type declares JSON, best-effort text otherwise. -/
def errorData (res : Resp) : DataVal :=
  if jsIncludes res.contentType "application/json" then
    match res.jsonBody with
    | some v => DataVal.jsonVal v
    | none => DataVal.undef
  else
    match res.textBody with
    | some s => DataVal.strVal s
    | none => DataVal.undef

/-- typeof data === 'string' on the data variable: true for raw text and for a
    JSON-decoded string payload. -/
def dataAsString : DataVal → Option String
  | DataVal.strVal s => some s
  | DataVal.jsonVal (JsVal.str s) => some s
  | _ => none

/-- Lines 301-304: a string message field inside a JSON-decoded object.
    typeof data === 'object' admits objects, arrays and null; null is
    excluded explicitly and arrays carry no message property, so only the
    object case can produce a string. -/
def jsonMessageField (res : Resp) : Option String :=
  if jsIncludes res.contentType "application/json" then
    match res.jsonBody with
    | some (JsVal.obj fs) =>
      match lookupField fs "message" with
      | some (JsVal.str s) => some s
      | _ => none
    | _ => none
  else none

/-- Lines 299-317: derive the ApiError message.  !message treats both
    undefined and the empty string as missing; the final fallback
    message || HTTP status fires when the chosen message is empty. -/
def errorMessage (res : Resp) : String :=
  let data := errorData res
  let m1 := jsonMessageField res
  let m2 :=
    match m1 with
    | some s => if s = "" then (dataAsString data).getD res.statusText else s
    | none => (dataAsString data).getD res.statusText
  if m2 = "" then "HTTP " ++ toString res.status else m2

/- ### Request options, retry configuration, client state -/

inductive Method where
  | GET | POST | PUT | PATCH | DELETE
  deriving DecidableEq, Repr

/-- RetryOptions (api-client.ts:28-35); every field optional. -/
structure RetryOptions where
  attempts : Option Int
  backoffMs : Option Nat
  retryOn : Option (List Nat)
  deriving Repr

/-- Effective retry configuration after the defaults at api-client.ts:282-284:
    attempts = Math.max(1, retry?.attempts ?? 1), backoffMs ?? 300,
    retryOn ?? [408, 429, 500, 502, 503, 504]. -/
structure RetryConfig where
  attempts : Nat
  backoffMs : Nat
  retryOn : List Nat
  deriving Repr

def effRetry (r : Option RetryOptions) : RetryConfig :=
  ⟨(max 1 ((r.bind RetryOptions.attempts).getD 1)).toNat,
   (r.bind RetryOptions.backoffMs).getD 300,
   (r.bind RetryOptions.retryOn).getD [408, 429, 500, 502, 503, 504]⟩

/-- A caller-supplied request body.  Form containers, blobs and binary
    buffers are opaque entities carried by identity; anything else is a JS
    value that may be JSON-serialised. -/
inductive BodyVal where
  | form : Nat → BodyVal
  | blob : Nat → BodyVal
  | buffer : Nat → BodyVal
  | jsVal : JsVal → BodyVal
  deriving Repr

/-- Model of isMultipartLike (api-client.ts:131-138): FormData, Blob,
    ArrayBuffer or a typed view over one. -/
def isMultipartLike : BodyVal → Bool
  | BodyVal.form _ => true
  | BodyVal.blob _ => true
  | BodyVal.buffer _ => true
  | BodyVal.jsVal _ => false

/-- What init.body holds when the request reaches the transport. -/
inductive BodyOut where
  | raw : BodyVal → BodyOut
  | jsonText : String → BodyOut
  deriving Repr

/-- Process-wide client state: default headers and the shared bearer token
    (api-client.ts:150-152). -/
structure ClientState where
  defaultHeaders : List (String × String)
  authToken : Option String
  deriving Repr

def initialState : ClientState :=
  ⟨[("Content-Type", "application/json")], none⟩

/-- Model of ApiClient.setAuth (api-client.ts:171-173). -/
def setAuth (st : ClientState) (token : Option String) : ClientState :=
  { st with authToken := token }

/-- Per-call options relevant to the embedded pipeline. -/
structure ReqOptions where
  method : Method
  body : Option BodyVal
  headers : List (String × String)
  timeoutMs : Option Int
  retry : Option RetryOptions
  deriving Repr

/-- Header merge at api-client.ts:249-253: defaults, then the Authorization
    entry when the shared token is truthy (non-null and non-empty), then the
    per-call overrides. -/
def mergedHeaders (st : ClientState) (opts : ReqOptions) : List (String × String) :=
  let withAuth :=
    match st.authToken with
    | some t => if t = "" then st.defaultHeaders
                else mergeHeaders st.defaultHeaders [("Authorization", "Bearer " ++ t)]
    | none => st.defaultHeaders
  mergeHeaders withAuth opts.headers

/-- The request init handed to the transport. -/
structure InitRec where
  method : Method
  headers : List (String × String)
  body : Option BodyOut
  deriving Repr

/-- JSON.stringify applied to a request body.  Only reachable for JsVal
    bodies (multipart-like bodies are passed through before this branch);
    a pre-formed entity would stringify as an empty object. -/
def stringifyBody : BodyVal → String
  | BodyVal.jsVal v => jsonStringify v
  | _ => "\x7b\x7d"

/-- Body encoding and header fixup at api-client.ts:255-279:
    no body on GET or when none was supplied; a multipart-like body passes
    through with the exact-case Content-Type key deleted; otherwise JSON
    serialisation exactly when the merged Content-Type header equals
    application/json; otherwise pass-through. -/
def mkInit (st : ClientState) (opts : ReqOptions) : InitRec :=
  let mh := mergedHeaders st opts
  match opts.body with
  | some b =>
    if opts.method ≠ Method.GET then
      if isMultipartLike b then
        ⟨opts.method, delKey mh "Content-Type", some (BodyOut.raw b)⟩
      else if getKey mh "Content-Type" = some "application/json" then
        ⟨opts.method, mh, some (BodyOut.jsonText (stringifyBody b))⟩
      else
        ⟨opts.method, mh, some (BodyOut.raw b)⟩
    else ⟨opts.method, mh, none⟩
  | none => ⟨opts.method, mh, none⟩

/- ### Timeout guard (api-client.ts:204-216, withTimeout)

   One transport invocation either settles (resolves or rejects) after a
   delay, or never settles.  The guard passes the promise through when the
   duration is falsy or nonpositive; otherwise its own rejection wins
   whenever the underlying promise has not settled within the duration. -/

inductive FetchBehavior where
  | resolvesAt : Nat → Resp → FetchBehavior
  | rejectsAt : Nat → ErrObj → FetchBehavior
  | hangs : FetchBehavior
  deriving Repr

/-- What awaiting the guarded attempt produces: a response, a thrown value,
    or no settlement at all. -/
inductive AttemptOutcome where
  | ok : Resp → AttemptOutcome
  | err : ErrObj → AttemptOutcome
  | pending : AttemptOutcome
  deriving Repr

/-- The guard rejection new Error(`Request timed out after N ms`). -/
def timeoutError (ms : Int) : ErrObj :=
  ⟨"Error", "Request timed out after " ++ toString ms ++ "ms", none, none⟩

/-- Model of withTimeout: !ms || ms <= 0 disables the guard; with a positive
    duration the guard rejection wins whenever the promise does not settle
    within the duration. -/
def withTimeout (ms : Int) (b : FetchBehavior) : AttemptOutcome :=
  if ms ≤ 0 then
    match b with
    | FetchBehavior.resolvesAt _ r => AttemptOutcome.ok r
    | FetchBehavior.rejectsAt _ e => AttemptOutcome.err e
    | FetchBehavior.hangs => AttemptOutcome.pending
  else
    match b with
    | FetchBehavior.resolvesAt t r =>
      if ms < (t : Int) then AttemptOutcome.err (timeoutError ms) else AttemptOutcome.ok r
    | FetchBehavior.rejectsAt t e =>
      if ms < (t : Int) then AttemptOutcome.err (timeoutError ms) else AttemptOutcome.err e
    | FetchBehavior.hangs => AttemptOutcome.err (timeoutError ms)

/-- The transport does not settle within n milliseconds. -/
def noSettleWithin (b : FetchBehavior) (n : Int) : Prop :=
  match b with
  | FetchBehavior.resolvesAt t _ => n < (t : Int)
  | FetchBehavior.rejectsAt t _ => n < (t : Int)
  | FetchBehavior.hangs => True

/- ### The attempt loop (api-client.ts:286-346) -/

/-- Outcome of the try-block body for one completed response. -/
inductive StepOut where
  | success : Parsed → StepOut
  | throwErr : ErrObj → StepOut
  | retryAfter : Nat → StepOut
  deriving Repr

/-- Lines 292-325 for one completed response: non-2xx responses retry when
    the attempt budget remains and the status is in the configured set,
    otherwise throw the classified ApiError; 2xx responses return the parsed
    body, the reader rejection being thrown when parsing fails. -/
def respStep (rc : RetryConfig) (attempt : Nat) (res : Resp) : StepOut :=
  if respOk res = false then
    if attempt < rc.attempts ∧ rc.retryOn.contains res.status = true then
      StepOut.retryAfter (rc.backoffMs * 2 ^ (attempt - 1))
    else
      StepOut.throwErr (mkApiError (errorMessage res) res.status (errorData res))
  else
    match parseResponse res with
    | some v => StepOut.success v
    | none => StepOut.throwErr readerError

/-- Result of a whole call. loopExit tags the trailing throw after the for
    loop (line 345); outOfScript is a model artifact for scripts shorter
    than the attempts the loop would make; noAnswer models a promise that
    never settles. -/
inductive CallResult where
  | success : Parsed → CallResult
  | failure : ErrObj → CallResult
  | loopExit : ErrObj → CallResult
  | noAnswer : CallResult
  | outOfScript : CallResult
  deriving Repr

def isSuccessResult : CallResult → Bool
  | CallResult.success _ => true
  | _ => false

/-- Line 345: lastError instanceof Error ? lastError : new Error('Unknown API error'). -/
def finalThrowValue : Option ErrObj → ErrObj
  | some e => e
  | none => ⟨"Error", "Unknown API error", none, none⟩

/-- Observable trace of one call: its result, how many times the transport
    was invoked, and the backoff delays awaited between attempts. -/
structure RunOut where
  result : CallResult
  invocations : Nat
  delays : List Nat
  deriving Repr

/-- The for loop of attempts (lines 288-342) plus the trailing throw
    (line 345).  attempt is the 1-based loop counter; the script supplies
    the behaviour of each successive transport invocation; lastError is the
    variable of line 286.  A thrown ApiError from the non-2xx branch and a
    rejection from the awaited attempt both land in the catch block, which
    retries only non-ApiError-shaped, non-abort failures while budget
    remains, and rethrows otherwise. -/
def requestLoop (rc : RetryConfig) (tm : Int) :
    Nat → Option ErrObj → List FetchBehavior → RunOut
  | attempt, lastErr, script =>
    if rc.attempts < attempt then
      ⟨CallResult.loopExit (finalThrowValue lastErr), 0, []⟩
    else
      match script with
      | [] => ⟨CallResult.outOfScript, 0, []⟩
      | b :: rest =>
        match withTimeout tm b with
        | AttemptOutcome.pending => ⟨CallResult.noAnswer, 1, []⟩
        | AttemptOutcome.ok res =>
          match respStep rc attempt res with
          | StepOut.success v => ⟨CallResult.success v, 1, []⟩
          | StepOut.retryAfter d =>
            let cont := requestLoop rc tm (attempt + 1) lastErr rest
            ⟨cont.result, cont.invocations + 1, d :: cont.delays⟩
          | StepOut.throwErr e =>
            if attempt < rc.attempts ∧ isApiErrorLike e = false ∧ isAbortError e = false then
              let cont := requestLoop rc tm (attempt + 1) (some e) rest
              ⟨cont.result, cont.invocations + 1,
               (rc.backoffMs * 2 ^ (attempt - 1)) :: cont.delays⟩
            else ⟨CallResult.failure e, 1, []⟩
        | AttemptOutcome.err e =>
          if attempt < rc.attempts ∧ isApiErrorLike e = false ∧ isAbortError e = false then
            let cont := requestLoop rc tm (attempt + 1) (some e) rest
            ⟨cont.result, cont.invocations + 1,
             (rc.backoffMs * 2 ^ (attempt - 1)) :: cont.delays⟩
          else ⟨CallResult.failure e, 1, []⟩

/-- A whole call: the init built once before the loop (and reused unchanged
    by every attempt), plus the observable run of the attempt loop. -/
structure CallOut where
  init : InitRec
  run : RunOut
  deriving Repr

/-- Model of ApiClient.request: build the init once (lines 246-279), apply
    the retry and timeout defaults (lines 282-284), then run the attempt
    loop from attempt 1 with lastError unset. -/
def request (st : ClientState) (opts : ReqOptions) (script : List FetchBehavior) : CallOut :=
  let rc := effRetry opts.retry
  let tm := opts.timeoutMs.getD 15000
  ⟨mkInit st opts, requestLoop rc tm 1 none script⟩


/- ### Concrete test vectors (mirroring the repository test suite) -/

/-- A 200 response with JSON body (test helper makeRes(200, ...)). -/
def okResp : Resp :=
  ⟨200, "OK", "application/json",
   some (JsVal.obj [("ok", JsVal.boolVal true)]), some "x", none, none⟩

/-- A 500 response with a JSON error body. -/
def resp500 : Resp :=
  ⟨500, "", "application/json",
   some (JsVal.obj [("error", JsVal.str "server busy")]), some "x", none, none⟩

/-- A 404 text response whose text body is empty while statusText is not. -/
def resp404 : Resp := ⟨404, "Not Found", "text/plain", none, some "", none, none⟩

/-- A 400 JSON response carrying a string message field (Scenario 6). -/
def resp400msg : Resp :=
  ⟨400, "Bad Request", "application/json",
   some (JsVal.obj [("message", JsVal.str "Bad stuff happened")]), some "x", none, none⟩

/-- A 2xx response declared JSON whose body does not decode as JSON. -/
def respBadJson : Resp := ⟨200, "OK", "application/json", none, some "not json", none, none⟩

/-- GET with every option defaulted. -/
def optsPlain : ReqOptions := ⟨Method.GET, none, [], none, none⟩

/-- GET with an explicit zero timeout. -/
def optsZeroTimeout : ReqOptions := ⟨Method.GET, none, [], some 0, none⟩

/-- GET with a 25 ms timeout (Scenario 5 of the spec). -/
def optsT25 : ReqOptions := ⟨Method.GET, none, [], some 25, none⟩

/-- GET with retry attempts = 2 and default statuses. -/
def optsRetry2 : ReqOptions := ⟨Method.GET, none, [], none, some ⟨some 2, none, none⟩⟩

/-- GET with retry attempts = 2 and a retryable set holding the 2xx status 200. -/
def optsRetryOn200 : ReqOptions := ⟨Method.GET, none, [], none, some ⟨some 2, none, some [200]⟩⟩

/-- GET with a nonpositive retry attempts value. -/
def optsNeg : ReqOptions := ⟨Method.GET, none, [], none, some ⟨some (-3), none, none⟩⟩

/-- POST of a form-data body with a lowercase content-type override. -/
def lcFormOpts : ReqOptions :=
  ⟨Method.POST, some (BodyVal.form 0), [("content-type", "text/plain")], none, none⟩

/-- POST of a form-data body with an exact-case Content-Type override
    (the repository test "removes a manually provided Content-Type"). -/
def opts7 : ReqOptions :=
  ⟨Method.POST, some (BodyVal.form 1), [("Content-Type", "application/json")], none, none⟩

/-- GET carrying a caller-supplied body. -/
def opts8 : ReqOptions :=
  ⟨Method.GET, some (BodyVal.jsVal (JsVal.str "payload")), [], none, none⟩

/-- GET with retry attempts = 1 (what a nonpositive value should clamp to). -/
def optsNeg1 : ReqOptions := ⟨Method.GET, none, [], none, some ⟨some 1, none, none⟩⟩

/-- GET with a per-call Authorization override. -/
def optsAuthHdr : ReqOptions :=
  ⟨Method.GET, none, [("Authorization", "Bearer override")], none, none⟩

/-- A small retry configuration used to exercise the loop directly. -/
def rcW : RetryConfig := ⟨2, 100, [500]⟩

/-- The abort rejection raised by fetch on cancellation. -/
def abortErr : ErrObj := ⟨"AbortError", "The operation was aborted", none, none⟩

/-- A plain network failure rejection. -/
def netErr : ErrObj := ⟨"TypeError", "network down", none, none⟩

/- ### One-step unfolding equations for the attempt loop -/

theorem requestLoop_nil (rc : RetryConfig) (tm : Int) (attempt : Nat) (lastErr : Option ErrObj) :
    requestLoop rc tm attempt lastErr [] =
      if rc.attempts < attempt then ⟨CallResult.loopExit (finalThrowValue lastErr), 0, []⟩
      else ⟨CallResult.outOfScript, 0, []⟩ := by
  rfl

theorem requestLoop_cons (rc : RetryConfig) (tm : Int) (attempt : Nat) (lastErr : Option ErrObj)
    (b : FetchBehavior) (rest : List FetchBehavior) :
    requestLoop rc tm attempt lastErr (b :: rest) =
      if rc.attempts < attempt then ⟨CallResult.loopExit (finalThrowValue lastErr), 0, []⟩
      else
        match withTimeout tm b with
        | AttemptOutcome.pending => ⟨CallResult.noAnswer, 1, []⟩
        | AttemptOutcome.ok res =>
          match respStep rc attempt res with
          | StepOut.success v => ⟨CallResult.success v, 1, []⟩
          | StepOut.retryAfter d =>
            let cont := requestLoop rc tm (attempt + 1) lastErr rest
            ⟨cont.result, cont.invocations + 1, d :: cont.delays⟩
          | StepOut.throwErr e =>
            if attempt < rc.attempts ∧ isApiErrorLike e = false ∧ isAbortError e = false then
              let cont := requestLoop rc tm (attempt + 1) (some e) rest
              ⟨cont.result, cont.invocations + 1,
               (rc.backoffMs * 2 ^ (attempt - 1)) :: cont.delays⟩
            else ⟨CallResult.failure e, 1, []⟩
        | AttemptOutcome.err e =>
          if attempt < rc.attempts ∧ isApiErrorLike e = false ∧ isAbortError e = false then
            let cont := requestLoop rc tm (attempt + 1) (some e) rest
            ⟨cont.result, cont.invocations + 1,
             (rc.backoffMs * 2 ^ (attempt - 1)) :: cont.delays⟩
          else ⟨CallResult.failure e, 1, []⟩ := by
  rfl

/- ### Small facts about the embedded operations -/

theorem effRetry_attempts_pos (r : Option RetryOptions) : 1 ≤ (effRetry r).attempts := by
  have h := le_max_left (1 : Int) ((r.bind RetryOptions.attempts).getD 1)
  simp only [effRetry]
  omega

theorem respStep_retryAfter_lt (rc : RetryConfig) (attempt : Nat) (res : Resp) (d : Nat)
    (h : respStep rc attempt res = StepOut.retryAfter d) : attempt < rc.attempts := by
  unfold respStep at h
  by_cases h1 : respOk res = false
  · rw [if_pos h1] at h
    by_cases h2 : attempt < rc.attempts ∧ rc.retryOn.contains res.status = true
    · exact h2.1
    · rw [if_neg h2] at h
      cases h
  · rw [if_neg h1] at h
    cases hp : parseResponse res with
    | some v => rw [hp] at h; cases h
    | none => rw [hp] at h; cases h

theorem head_dropWhile_ne (p : Char → Bool) :
    ∀ (l : List Char) (c : Char), (l.dropWhile p).head? = some c → p c = false := by
  intro l
  induction l with
  | nil => intro c h; cases h
  | cons a t ih =>
    intro c h
    rw [List.dropWhile_cons] at h
    by_cases hpa : p a
    · rw [if_pos hpa] at h
      exact ih c h
    · rw [if_neg hpa] at h
      simp only [List.head?_cons, Option.some.injEq] at h
      rw [← h]
      exact Bool.eq_false_iff.mpr hpa

theorem endsWithSlash_strip (s : String) : endsWithSlash (stripTrailingSlashes s) = false := by
  unfold endsWithSlash stripTrailingSlashes
  have htl : (((s.toList.reverse.dropWhile (fun c => c == '/')).reverse).asString).toList
      = (s.toList.reverse.dropWhile (fun c => c == '/')).reverse := rfl
  rw [htl, List.getLast?_reverse]
  cases h : (s.toList.reverse.dropWhile (fun c => c == '/')).head? with
  | none => rfl
  | some c => simpa using head_dropWhile_ne _ _ c h

theorem getKey_setKey_self (m : List (String × String)) (k v : String) :
    getKey (setKey m k v) k = some v := by
  induction m with
  | nil => simp [setKey, getKey, List.find?]
  | cons p t ih =>
    by_cases h : p.1 = k
    · simp [setKey, h, getKey, List.find?]
    · unfold setKey
      rw [if_neg h]
      unfold getKey at ih ⊢
      rw [List.find?]
      have hne : (p.1 == k) = false := by
        exact beq_eq_false_iff_ne.mpr h
      rw [hne]
      exact ih

theorem getKey_setKey_ne (m : List (String × String)) (k k2 v : String) (hk : k2 ≠ k) :
    getKey (setKey m k2 v) k = getKey m k := by
  induction m with
  | nil =>
    simp [setKey, getKey, List.find?, beq_eq_false_iff_ne.mpr hk]
  | cons p t ih =>
    by_cases h : p.1 = k2
    · unfold setKey
      rw [if_pos h]
      unfold getKey
      rw [List.find?, List.find?, beq_eq_false_iff_ne.mpr hk]
      have hpk : (p.1 == k) = false := by
        rw [h]
        exact beq_eq_false_iff_ne.mpr hk
      rw [hpk]
    · unfold setKey
      rw [if_neg h]
      unfold getKey at ih ⊢
      rw [List.find?, List.find?]
      cases hpe : (p.1 == k) with
      | true => rfl
      | false => exact ih

theorem getKey_mergeHeaders (l : List (String × String)) :
    ∀ (m : List (String × String)) (k : String),
      getKey (mergeHeaders m l) k =
        match lastVal l k with
        | some v => some v
        | none => getKey m k := by
  induction l with
  | nil => intro m k; rfl
  | cons p t ih =>
    intro m k
    have hstep : mergeHeaders m (p :: t) = mergeHeaders (setKey m p.1 p.2) t := rfl
    rw [hstep, ih]
    by_cases hk : p.1 = k
    · cases hl : lastVal t k with
      | some v => simp [lastVal, hl]
      | none =>
        simp only [lastVal, hl, if_pos hk]
        rw [← hk, getKey_setKey_self]
    · cases hl : lastVal t k with
      | some v => simp [lastVal, hl]
      | none =>
        simp only [lastVal, hl, if_neg hk]
        exact getKey_setKey_ne m k p.1 p.2 hk

theorem getKey_delKey_ne (m : List (String × String)) (k k2 : String) (hk : k ≠ k2) :
    getKey (delKey m k2) k = getKey m k := by
  induction m with
  | nil => rfl
  | cons p t ih =>
    unfold delKey at ih ⊢
    by_cases h : p.1 = k2
    · rw [List.filter_cons]
      have : (p.1 != k2) = false := by simp [h]
      rw [this]
      simp only [Bool.false_eq_true, if_false]
      rw [ih]
      unfold getKey
      rw [List.find?]
      have hpk : (p.1 == k) = false := by
        rw [h]
        exact beq_eq_false_iff_ne.mpr (fun he => hk he.symm)
      rw [hpk]
    · rw [List.filter_cons]
      have : (p.1 != k2) = true := by simp [h]
      rw [this]
      simp only [if_true]
      unfold getKey at ih ⊢
      rw [List.find?, List.find?]
      cases hpe : (p.1 == k) with
      | true => rfl
      | false => exact ih

theorem all_delKey (m : List (String × String)) (k : String) :
    (delKey m k).all (fun p => p.1 != k) = true := by
  unfold delKey
  induction m with
  | nil => rfl
  | cons p t ih =>
    rw [List.filter_cons]
    by_cases h : (p.1 != k) = true
    · rw [h]
      simp only [if_true, List.all_cons, h, Bool.true_and]
      exact ih
    · have hf : (p.1 != k) = false := by
        cases hx : (p.1 != k) with
        | true => exact absurd hx h
        | false => rfl
      rw [hf]
      simp only [Bool.false_eq_true, if_false]
      exact ih

theorem getKey_mkInit_ne_ct (st : ClientState) (opts : ReqOptions) (k : String)
    (hk : k ≠ "Content-Type") :
    getKey (mkInit st opts).headers k = getKey (mergedHeaders st opts) k := by
  unfold mkInit
  cases hb : opts.body with
  | none => rfl
  | some b =>
    simp only []
    by_cases hm : opts.method ≠ Method.GET
    · rw [if_pos hm]
      by_cases hmp : isMultipartLike b = true
      · rw [if_pos hmp]
        exact getKey_delKey_ne _ k "Content-Type" hk
      · rw [if_neg hmp]
        by_cases hct : getKey (mergedHeaders st opts) "Content-Type" = some "application/json"
        · rw [if_pos hct]
        · rw [if_neg hct]
    · rw [if_neg hm]

/- ### Single-attempt evaluations of the loop (shared by several claims) -/

theorem requestLoop_single_success (rc : RetryConfig) (tm : Int) (b : FetchBehavior) (res : Resp)
    (v : Parsed) (hpos : 1 ≤ rc.attempts) (hb : withTimeout tm b = AttemptOutcome.ok res)
    (hok : respOk res = true) (hp : parseResponse res = some v) :
    requestLoop rc tm 1 none [b] = ⟨CallResult.success v, 1, []⟩ := by
  have hstep : respStep rc 1 res = StepOut.success v := by
    unfold respStep
    rw [if_neg (by simp [hok])]
    simp only [hp]
  rw [requestLoop_cons, if_neg (by omega)]
  simp only [hb, hstep]

theorem requestLoop_single_reader (rc : RetryConfig) (tm : Int) (b : FetchBehavior) (res : Resp)
    (hatt : rc.attempts = 1) (hb : withTimeout tm b = AttemptOutcome.ok res)
    (hok : respOk res = true) (hp : parseResponse res = none) :
    requestLoop rc tm 1 none [b] = ⟨CallResult.failure readerError, 1, []⟩ := by
  have hstep : respStep rc 1 res = StepOut.throwErr readerError := by
    unfold respStep
    rw [if_neg (by simp [hok])]
    simp only [hp]
  rw [requestLoop_cons, if_neg (by omega)]
  simp only [hb, hstep]
  rw [if_neg (by rintro ⟨hlt, -, -⟩; omega)]

theorem requestLoop_single_fail (rc : RetryConfig) (tm : Int) (b : FetchBehavior) (res : Resp)
    (hatt : rc.attempts = 1) (hb : withTimeout tm b = AttemptOutcome.ok res)
    (hfail : respOk res = false) :
    requestLoop rc tm 1 none [b]
      = ⟨CallResult.failure (mkApiError (errorMessage res) res.status (errorData res)), 1, []⟩ := by
  have hstep : respStep rc 1 res
      = StepOut.throwErr (mkApiError (errorMessage res) res.status (errorData res)) := by
    unfold respStep
    rw [if_pos hfail, if_neg (by rintro ⟨hlt, -⟩; omega)]
  rw [requestLoop_cons, if_neg (by omega)]
  simp only [hb, hstep]
  rw [if_neg (by rintro ⟨-, hapi, -⟩; simp [isApiErrorLike, mkApiError] at hapi)]

theorem requestLoop_ne_loopExit (rc : RetryConfig) (tm : Int) :
    ∀ (script : List FetchBehavior) (attempt : Nat) (lastErr : Option ErrObj) (e : ErrObj),
      attempt ≤ rc.attempts →
      (requestLoop rc tm attempt lastErr script).result ≠ CallResult.loopExit e := by
  intro script
  induction script with
  | nil =>
    intro attempt lastErr e hle
    rw [requestLoop_nil, if_neg (by omega)]
    intro hc
    cases hc
  | cons b rest ih =>
    intro attempt lastErr e hle
    rw [requestLoop_cons, if_neg (by omega)]
    cases hw : withTimeout tm b with
    | pending => simp only []; intro hc; cases hc
    | ok res =>
      simp only []
      cases hs : respStep rc attempt res with
      | success v => simp only []; intro hc; cases hc
      | retryAfter d =>
        have hlt := respStep_retryAfter_lt rc attempt res d hs
        simp only []
        exact ih (attempt + 1) lastErr e (by omega)
      | throwErr e2 =>
        simp only []
        by_cases hcond : attempt < rc.attempts ∧ isApiErrorLike e2 = false ∧ isAbortError e2 = false
        · rw [if_pos hcond]
          simp only []
          exact ih (attempt + 1) (some e2) e (by omega)
        · rw [if_neg hcond]
          intro hc
          cases hc
    | err e2 =>
      simp only []
      by_cases hcond : attempt < rc.attempts ∧ isApiErrorLike e2 = false ∧ isAbortError e2 = false
      · rw [if_pos hcond]
        simp only []
        exact ih (attempt + 1) (some e2) e (by omega)
      · rw [if_neg hcond]
        intro hc
        cases hc

/- ### Claim C2 — origin resolution -/

/-- C2 counterexample: the claim asserts a cross-environment fallback
    ("the other value used as a fallback when the preferred one is absent"),
    but resolveBaseUrl consults only the value of the current side: with the
    server-only value absent and the public value set, a server-side
    resolution yields the empty string, not the public value (and
    symmetrically in the browser). -/
theorem c2_origin_no_cross_fallback_cex :
    resolveBaseUrl true none (some "https://public.example.com") = ""
    ∧ resolveBaseUrl false (some "https://server.example.com") none = ""
    ∧ ("https://public.example.com" : String) ≠ ""
    ∧ ("https://server.example.com" : String) ≠ "" :=
  ⟨rfl, rfl, by decide, by decide⟩

/-- C2 (amended): origin resolution returns the trimmed server-only value when
    server-side and the trimmed public value otherwise; the other
    configuration value is never consulted; an absent (or blank) preferred
    value yields the empty string; and the result never ends in a path
    separator because every trailing separator is stripped. -/
theorem c2_origin_resolution_amended :
    (∀ sb cb cb2, resolveBaseUrl true sb cb = resolveBaseUrl true sb cb2)
    ∧ (∀ sb sb2 cb, resolveBaseUrl false sb cb = resolveBaseUrl false sb2 cb)
    ∧ (∀ s cb, resolveBaseUrl true (some s) cb = stripTrailingSlashes s.trim)
    ∧ (∀ sb s, resolveBaseUrl false sb (some s) = stripTrailingSlashes s.trim)
    ∧ (∀ cb, resolveBaseUrl true none cb = "")
    ∧ (∀ sb, resolveBaseUrl false sb none = "")
    ∧ (∀ isrv sb cb, endsWithSlash (resolveBaseUrl isrv sb cb) = false) := by
  refine ⟨fun sb cb cb2 => rfl, fun sb sb2 cb => rfl, fun s cb => rfl, fun sb s => rfl,
    fun cb => rfl, fun sb => rfl, fun isrv sb cb => endsWithSlash_strip _⟩

/- ### Claim C7 — multipart bodies and the Content-Type header -/

/-- C7 counterexample: a per-call override spelled content-type (lower case)
    is a Content-Type entry of the effective headers in the case-insensitive
    sense of HTTP and of the Headers object, yet it survives the multipart
    fixup, because the delete operator removes only the exact-case key. -/
theorem c7_lowercase_content_type_cex :
    hasHeaderCI (request initialState lcFormOpts []).init.headers "Content-Type" = true
    ∧ getKey (request initialState lcFormOpts []).init.headers "content-type" = some "text/plain"
    ∧ isMultipartLike (BodyVal.form 0) = true
    ∧ (request initialState lcFormOpts []).init.body = some (BodyOut.raw (BodyVal.form 0)) :=
  ⟨by decide, rfl, rfl, rfl⟩

/-- C7 (amended): for every non-GET call with a multipart-like payload the
    payload reaches the transport unmodified and the effective headers
    contain no entry whose key is exactly Content-Type (the client defaults
    and an exact-case per-call override are both removed); an override
    spelled with different letter case survives, as the counterexample
    shows. -/
theorem c7_multipart_content_type_amended
    (st : ClientState) (opts : ReqOptions) (b : BodyVal) (script : List FetchBehavior)
    (hm : opts.method ≠ Method.GET) (hbody : opts.body = some b)
    (hmp : isMultipartLike b = true) :
    (request st opts script).init.body = some (BodyOut.raw b)
    ∧ (request st opts script).init.headers.all (fun p => p.1 != "Content-Type") = true := by
  have hinit : (request st opts script).init = mkInit st opts := rfl
  rw [hinit]
  unfold mkInit
  rw [hbody]
  simp only []
  rw [if_pos hm, if_pos hmp]
  exact ⟨rfl, all_delKey _ _⟩

/-- Witness for C7 (amended): the exact-case override of the repository test
    "removes a manually provided Content-Type when body is multipart". -/
theorem c7_multipart_content_type_witness :
    (request initialState opts7 []).init.body = some (BodyOut.raw (BodyVal.form 1))
    ∧ (request initialState opts7 []).init.headers.all (fun p => p.1 != "Content-Type") = true :=
  c7_multipart_content_type_amended initialState opts7 (BodyVal.form 1) [] (by decide) rfl rfl

/- ### Claim C8 — GET never carries a body -/

/-- C8: for every call with verb GET the init passed to the transport has no
    body, whatever payload the caller supplied. -/
theorem c8_get_never_sends_body (st : ClientState) (opts : ReqOptions)
    (script : List FetchBehavior) (h : opts.method = Method.GET) :
    (request st opts script).init.body = none := by
  have hinit : (request st opts script).init = mkInit st opts := rfl
  rw [hinit]
  unfold mkInit
  cases hbd : opts.body with
  | none => rfl
  | some b =>
    simp only []
    rw [if_neg (fun hc => hc h)]

/-- Witness for C8: a GET carrying a caller-supplied body still reaches the
    transport without one. -/
theorem c8_get_never_sends_body_witness :
    (request initialState opts8 []).init.body = none ∧ opts8.body.isSome = true :=
  ⟨c8_get_never_sends_body initialState opts8 [] rfl, rfl⟩

/- ### Claim C10 — shared bearer token -/

/-- C10: an empty-string token behaves exactly like a cleared (null) token:
    no Authorization header comes from the shared token; a non-empty token
    tkn yields the header value Bearer tkn unless a per-call Authorization
    override supplies the value instead. -/
theorem c10_bearer_token :
    (∀ st opts script,
        request (setAuth st (some "")) opts script = request (setAuth st none) opts script)
    ∧ (∀ st opts script tkn, tkn ≠ "" → lastVal opts.headers "Authorization" = none →
        getKey (request (setAuth st (some tkn)) opts script).init.headers "Authorization"
          = some ("Bearer " ++ tkn))
    ∧ (∀ st opts script tkn v, tkn ≠ "" → lastVal opts.headers "Authorization" = some v →
        getKey (request (setAuth st (some tkn)) opts script).init.headers "Authorization"
          = some v) := by
  refine ⟨?_, ?_, ?_⟩
  · intro st opts script
    rfl
  · intro st opts script tkn htk hno
    have h1 : (request (setAuth st (some tkn)) opts script).init
        = mkInit (setAuth st (some tkn)) opts := rfl
    rw [h1, getKey_mkInit_ne_ct _ _ _ (by decide)]
    unfold mergedHeaders
    have hauth : (setAuth st (some tkn)).authToken = some tkn := rfl
    rw [hauth]
    simp only []
    rw [if_neg htk, getKey_mergeHeaders, hno]
    simp only []
    have hdef : (setAuth st (some tkn)).defaultHeaders = st.defaultHeaders := rfl
    rw [hdef, getKey_mergeHeaders]
    rfl
  · intro st opts script tkn v htk hv
    have h1 : (request (setAuth st (some tkn)) opts script).init
        = mkInit (setAuth st (some tkn)) opts := rfl
    rw [h1, getKey_mkInit_ne_ct _ _ _ (by decide)]
    unfold mergedHeaders
    rw [getKey_mergeHeaders, hv]

/-- Witness for C10: the empty token equals the cleared token on a concrete
    call; token tok123 yields Bearer tok123; a per-call override wins. -/
theorem c10_bearer_token_witness :
    request (setAuth initialState (some "")) optsPlain []
      = request (setAuth initialState none) optsPlain []
    ∧ getKey (request (setAuth initialState (some "tok123")) optsPlain []).init.headers
        "Authorization" = some ("Bearer " ++ "tok123")
    ∧ getKey (request (setAuth initialState (some "tok123")) optsAuthHdr []).init.headers
        "Authorization" = some "Bearer override" :=
  ⟨c10_bearer_token.1 initialState optsPlain [],
   c10_bearer_token.2.1 initialState optsPlain [] "tok123" (by decide) rfl,
   c10_bearer_token.2.2 initialState optsAuthHdr [] "tok123" "Bearer override" (by decide) rfl⟩

/- ### Claim C1 — retry decision on response status -/

/-- C1 counterexample: the claim quantifies over every completed response,
    but the code consults the retryable set only for non-2xx responses.
    A 200 response outside the default retryable set makes the call succeed
    (the claim says such a call fails with the classified error), and a 200
    response inside a configured retryable set with budget remaining is not
    retried (the claim says exactly one additional attempt occurs). -/
theorem c1_retry_claim_cex :
    isSuccessResult (request initialState optsRetry2 [FetchBehavior.resolvesAt 0 okResp]).run.result
      = true
    ∧ (request initialState optsRetry2 [FetchBehavior.resolvesAt 0 okResp]).run.invocations = 1
    ∧ (effRetry optsRetry2.retry).retryOn.contains 200 = false
    ∧ (effRetry optsRetry2.retry).attempts = 2
    ∧ (request initialState optsRetryOn200
        [FetchBehavior.resolvesAt 0 okResp, FetchBehavior.resolvesAt 0 okResp]).run.invocations = 1
    ∧ (effRetry optsRetryOn200.retry).retryOn.contains 200 = true
    ∧ (effRetry optsRetryOn200.retry).attempts = 2 :=
  ⟨rfl, rfl, by decide, by decide, rfl, by decide, by decide⟩

/-- C1 (amended): for every completed attempt whose response is a non-success
    (status outside 200-299): if the status is in the configured retryable
    set and the attempt index is below the max attempts, the loop performs
    exactly one additional attempt after a backoff delay of
    backoffMs * 2 ^ (attempt - 1); if the status is outside the set the call
    fails at once with the classified ApiError carrying that status, with no
    additional transport invocation. -/
theorem c1_retry_decision_amended
    (rc : RetryConfig) (tm : Int) (attempt : Nat) (lastErr : Option ErrObj)
    (b : FetchBehavior) (rest : List FetchBehavior) (res : Resp)
    (hb : withTimeout tm b = AttemptOutcome.ok res)
    (hfail : respOk res = false) :
    (rc.retryOn.contains res.status = true → attempt < rc.attempts →
      requestLoop rc tm attempt lastErr (b :: rest) =
        ⟨(requestLoop rc tm (attempt + 1) lastErr rest).result,
         (requestLoop rc tm (attempt + 1) lastErr rest).invocations + 1,
         rc.backoffMs * 2 ^ (attempt - 1) :: (requestLoop rc tm (attempt + 1) lastErr rest).delays⟩)
    ∧ (rc.retryOn.contains res.status = false → attempt ≤ rc.attempts →
      requestLoop rc tm attempt lastErr (b :: rest) =
        ⟨CallResult.failure (mkApiError (errorMessage res) res.status (errorData res)), 1, []⟩) := by
  constructor
  · intro hin hlt
    have hstep : respStep rc attempt res
        = StepOut.retryAfter (rc.backoffMs * 2 ^ (attempt - 1)) := by
      unfold respStep
      rw [if_pos hfail, if_pos ⟨hlt, hin⟩]
    rw [requestLoop_cons, if_neg (by omega : ¬ rc.attempts < attempt)]
    simp only [hb, hstep]
  · intro hout hle
    have hstep : respStep rc attempt res
        = StepOut.throwErr (mkApiError (errorMessage res) res.status (errorData res)) := by
      unfold respStep
      rw [if_pos hfail, if_neg (by rintro ⟨-, hc⟩; rw [hout] at hc; cases hc)]
    rw [requestLoop_cons, if_neg (by omega : ¬ rc.attempts < attempt)]
    simp only [hb, hstep]
    rw [if_neg (by rintro ⟨-, hapi, -⟩; simp [isApiErrorLike, mkApiError] at hapi)]

/-- Witness for C1 (amended): a 500 inside the set with budget left retries
    once after 100 * 2 ^ 0 ms; a 404 outside the set fails at once with the
    classified error. -/
theorem c1_retry_decision_witness :
    requestLoop rcW 0 1 none [FetchBehavior.resolvesAt 0 resp500, FetchBehavior.resolvesAt 0 okResp]
      = ⟨(requestLoop rcW 0 2 none [FetchBehavior.resolvesAt 0 okResp]).result,
         (requestLoop rcW 0 2 none [FetchBehavior.resolvesAt 0 okResp]).invocations + 1,
         100 * 2 ^ (1 - 1) :: (requestLoop rcW 0 2 none [FetchBehavior.resolvesAt 0 okResp]).delays⟩
    ∧ requestLoop rcW 0 1 none [FetchBehavior.resolvesAt 0 resp404]
      = ⟨CallResult.failure (mkApiError (errorMessage resp404) resp404.status (errorData resp404)),
         1, []⟩ := by
  constructor
  · exact (c1_retry_decision_amended rcW 0 1 none (FetchBehavior.resolvesAt 0 resp500)
      [FetchBehavior.resolvesAt 0 okResp] resp500 rfl rfl).1 (by decide) (by decide)
  · exact (c1_retry_decision_amended rcW 0 1 none (FetchBehavior.resolvesAt 0 resp404)
      [] resp404 rfl rfl).2 (by decide) (by decide)

/- ### Claim C3 — the timeout guard -/

/-- C3 counterexample: the claim says an absent timeout duration disables the
    guard; in fact an absent duration takes the 15000 ms default, so a call
    with no timeout option against a hanging transport still fails with the
    guard rejection, while an explicit zero genuinely disables the guard
    (the call never settles). -/
theorem c3_absent_timeout_cex :
    optsPlain.timeoutMs = none
    ∧ (request initialState optsPlain [FetchBehavior.hangs]).run
      = ⟨CallResult.failure (timeoutError 15000), 1, []⟩
    ∧ (timeoutError 15000).message = "Request timed out after 15000ms"
    ∧ (request initialState optsZeroTimeout [FetchBehavior.hangs]).run
      = ⟨CallResult.noAnswer, 1, []⟩ :=
  ⟨rfl, rfl, rfl, rfl⟩

/-- C3 (amended): a timeout duration of zero (or any nonpositive duration)
    disables the guard entirely — a hanging transport leaves the call
    pending forever; an absent duration takes the 15000 ms default, so the
    guard fires after 15000 ms; and for every positive duration N, when the
    transport does not settle within N ms the caller receives a rejection
    whose message is exactly "Request timed out after Nms", the transport
    having been invoked exactly once for that attempt. -/
theorem c3_timeout_guard_amended :
    (∀ st opts script z, opts.timeoutMs = some z → z ≤ 0 →
      (request st opts (FetchBehavior.hangs :: script)).run.result = CallResult.noAnswer
      ∧ (request st opts (FetchBehavior.hangs :: script)).run.invocations = 1)
    ∧ (∀ st opts, opts.timeoutMs = none → opts.retry = none →
      (request st opts [FetchBehavior.hangs]).run = ⟨CallResult.failure (timeoutError 15000), 1, []⟩
      ∧ (timeoutError 15000).message = "Request timed out after 15000ms")
    ∧ (∀ st opts n b, opts.timeoutMs = some n → 0 < n → opts.retry = none →
      noSettleWithin b n →
      (request st opts [b]).run = ⟨CallResult.failure (timeoutError n), 1, []⟩
      ∧ (timeoutError n).message = "Request timed out after " ++ toString n ++ "ms") := by
  refine ⟨?_, ?_, ?_⟩
  · intro st opts script z hto hz
    have hpos := effRetry_attempts_pos opts.retry
    have hw : withTimeout (opts.timeoutMs.getD 15000) FetchBehavior.hangs
        = AttemptOutcome.pending := by
      rw [hto]
      unfold withTimeout
      rw [if_pos (by simpa using hz)]
    have hrun : (request st opts (FetchBehavior.hangs :: script)).run
        = requestLoop (effRetry opts.retry) (opts.timeoutMs.getD 15000) 1 none
            (FetchBehavior.hangs :: script) := rfl
    have hfull : requestLoop (effRetry opts.retry) (opts.timeoutMs.getD 15000) 1 none
        (FetchBehavior.hangs :: script) = ⟨CallResult.noAnswer, 1, []⟩ := by
      rw [requestLoop_cons, if_neg (by omega)]
      simp only [hw]
    rw [hrun, hfull]
    exact ⟨rfl, rfl⟩
  · intro st opts hto hretry
    have hrun : (request st opts [FetchBehavior.hangs]).run
        = requestLoop (effRetry opts.retry) (opts.timeoutMs.getD 15000) 1 none
            [FetchBehavior.hangs] := rfl
    rw [hrun, hto, hretry]
    exact ⟨rfl, rfl⟩
  · intro st opts n b hto hn hretry hns
    have hw : withTimeout (opts.timeoutMs.getD 15000) b = AttemptOutcome.err (timeoutError n) := by
      rw [hto]
      show withTimeout n b = AttemptOutcome.err (timeoutError n)
      unfold withTimeout
      rw [if_neg (by omega)]
      cases b with
      | resolvesAt t r =>
        simp only [noSettleWithin] at hns
        simp only []
        rw [if_pos hns]
      | rejectsAt t e =>
        simp only [noSettleWithin] at hns
        simp only []
        rw [if_pos hns]
      | hangs => rfl
    have hrun : (request st opts [b]).run
        = requestLoop (effRetry opts.retry) (opts.timeoutMs.getD 15000) 1 none [b] := rfl
    constructor
    · rw [hrun, hretry, requestLoop_cons, if_neg (by decide)]
      simp only [hw]
      rw [if_neg (by rintro ⟨hlt, -⟩; exact absurd hlt (by decide))]
    · rfl

/-- Witness for C3 (amended): Scenario 5 — a 25 ms timeout against a hanging
    transport yields the exact message after one invocation. -/
theorem c3_timeout_guard_witness :
    (request initialState optsT25 [FetchBehavior.hangs]).run
      = ⟨CallResult.failure (timeoutError 25), 1, []⟩
    ∧ (timeoutError 25).message = "Request timed out after " ++ toString (25 : Int) ++ "ms" :=
  c3_timeout_guard_amended.2.2 initialState optsT25 25 FetchBehavior.hangs rfl (by decide) rfl
    trivial

/- ### Claim C6 — aborts and classified errors are never retried -/

/-- C6: when an attempt fails with an abort-named rejection or with an
    ApiError-shaped value, the failure is surfaced at once — one transport
    invocation, no backoff — whatever attempt budget remains. -/
theorem c6_abort_apierror_never_retried
    (rc : RetryConfig) (tm : Int) (attempt : Nat) (lastErr : Option ErrObj)
    (b : FetchBehavior) (rest : List FetchBehavior) (e : ErrObj)
    (hatt : attempt ≤ rc.attempts)
    (hb : withTimeout tm b = AttemptOutcome.err e)
    (hkind : isAbortError e = true ∨ isApiErrorLike e = true) :
    requestLoop rc tm attempt lastErr (b :: rest) = ⟨CallResult.failure e, 1, []⟩ := by
  rw [requestLoop_cons, if_neg (by omega : ¬ rc.attempts < attempt)]
  simp only [hb]
  rw [if_neg ?_]
  rintro ⟨-, hapi, habort⟩
  rcases hkind with h | h
  · rw [h] at habort
    cases habort
  · rw [h] at hapi
    cases hapi

/-- Witness for C6: an abort rejection and an ApiError-shaped rejection both
    surface unchanged on the first of five allowed attempts. -/
theorem c6_abort_apierror_witness :
    requestLoop ⟨5, 300, [500]⟩ 0 1 none [FetchBehavior.rejectsAt 0 abortErr]
      = ⟨CallResult.failure abortErr, 1, []⟩
    ∧ requestLoop ⟨5, 300, [500]⟩ 0 1 none
        [FetchBehavior.rejectsAt 0 (mkApiError "boom" 404 DataVal.undef)]
      = ⟨CallResult.failure (mkApiError "boom" 404 DataVal.undef), 1, []⟩ :=
  ⟨c6_abort_apierror_never_retried ⟨5, 300, [500]⟩ 0 1 none
      (FetchBehavior.rejectsAt 0 abortErr) [] abortErr (by decide) rfl (Or.inl rfl),
   c6_abort_apierror_never_retried ⟨5, 300, [500]⟩ 0 1 none
      (FetchBehavior.rejectsAt 0 (mkApiError "boom" 404 DataVal.undef)) []
      (mkApiError "boom" 404 DataVal.undef) (by decide) rfl (Or.inr rfl)⟩

/- ### Claim C4 — response classification and decoder selection -/

/-- C4 counterexample: a 2xx response declared JSON whose body fails to
    decode makes the call fail (the reader rejection propagates), so the
    call does not succeed even though the status is in the 200-299 range. -/
theorem c4_success_iff_2xx_cex :
    respOk respBadJson = true
    ∧ (request initialState optsPlain [FetchBehavior.resolvesAt 0 respBadJson]).run
        = ⟨CallResult.failure readerError, 1, []⟩
    ∧ isSuccessResult
        (request initialState optsPlain [FetchBehavior.resolvesAt 0 respBadJson]).run.result
        = false :=
  ⟨rfl, rfl, rfl⟩

/-- C4 (amended): for a single-attempt call whose transport response
    completes, the call succeeds iff the status is in 200-299 AND the
    content-type-selected decoder succeeds, in which case the result is
    that decoder's output; the decoder is chosen from the declared content
    type: a JSON media type gives the structured decode, the binary media
    families (octet-stream, image, video, audio, PDF) give the blob decode,
    a multipart form media type gives the form decode, and anything else
    gives the text decode. -/
theorem c4_response_classification_amended
    (st : ClientState) (opts : ReqOptions) (b : FetchBehavior) (res : Resp)
    (hretry : opts.retry = none)
    (hb : withTimeout (opts.timeoutMs.getD 15000) b = AttemptOutcome.ok res) :
    (isSuccessResult (request st opts [b]).run.result = true
        ↔ (respOk res = true ∧ (parseResponse res).isSome = true))
    ∧ (∀ v, respOk res = true → parseResponse res = some v →
        (request st opts [b]).run = ⟨CallResult.success v, 1, []⟩)
    ∧ (jsIncludes res.contentType "application/json" = true →
        parseResponse res = res.jsonBody.map Parsed.jsonV)
    ∧ (jsIncludes res.contentType "application/json" = false →
        isBinaryCT res.contentType = true →
        parseResponse res = res.blobBody.map Parsed.blobV)
    ∧ (jsIncludes res.contentType "application/json" = false →
        isBinaryCT res.contentType = false →
        jsIncludes res.contentType "multipart/form-data" = true →
        parseResponse res = res.formBody.map Parsed.formV)
    ∧ (jsIncludes res.contentType "application/json" = false →
        isBinaryCT res.contentType = false →
        jsIncludes res.contentType "multipart/form-data" = false →
        parseResponse res = res.textBody.map Parsed.textV) := by
  have hatt1 : (effRetry opts.retry).attempts = 1 := by
    rw [hretry]
    decide
  have hrun : (request st opts [b]).run
      = requestLoop (effRetry opts.retry) (opts.timeoutMs.getD 15000) 1 none [b] := rfl
  refine ⟨?_, ?_, ?_, ?_, ?_, ?_⟩
  · by_cases hok : respOk res = true
    · cases hp : parseResponse res with
      | some v =>
        rw [hrun, requestLoop_single_success _ _ _ _ v (by omega) hb hok hp]
        simp [isSuccessResult, hok, hp]
      | none =>
        rw [hrun, requestLoop_single_reader _ _ _ _ hatt1 hb hok hp]
        simp [isSuccessResult, hp]
    · have hfail : respOk res = false := by
        cases hx : respOk res with
        | true => exact absurd hx hok
        | false => rfl
      rw [hrun, requestLoop_single_fail _ _ _ _ hatt1 hb hfail]
      simp [isSuccessResult, hfail]
  · intro v hok hp
    rw [hrun, requestLoop_single_success _ _ _ _ v (by omega) hb hok hp]
  · intro hj
    unfold parseResponse
    rw [if_pos hj]
  · intro hj hbin
    unfold parseResponse
    rw [if_neg (by simp [hj]), if_pos hbin]
  · intro hj hbin hmf
    unfold parseResponse
    rw [if_neg (by simp [hj]), if_neg (by simp [hbin]), if_pos hmf]
  · intro hj hbin hmf
    unfold parseResponse
    rw [if_neg (by simp [hj]), if_neg (by simp [hbin]), if_neg (by simp [hmf])]

/-- Witness for C4 (amended): a 200 JSON response decodes to its structured
    payload in one invocation. -/
theorem c4_response_classification_witness :
    (request initialState optsPlain [FetchBehavior.resolvesAt 0 okResp]).run
      = ⟨CallResult.success (Parsed.jsonV (JsVal.obj [("ok", JsVal.boolVal true)])), 1, []⟩
    ∧ parseResponse okResp = okResp.jsonBody.map Parsed.jsonV :=
  ⟨(c4_response_classification_amended initialState optsPlain (FetchBehavior.resolvesAt 0 okResp)
      okResp rfl rfl).2.1 (Parsed.jsonV (JsVal.obj [("ok", JsVal.boolVal true)])) rfl rfl,
   (c4_response_classification_amended initialState optsPlain (FetchBehavior.resolvesAt 0 okResp)
      okResp rfl rfl).2.2.1 rfl⟩

/- ### Claim C5 — error message derivation -/

/-- C5 counterexample: a 404 text/plain response with an empty (but
    successfully decoded) text body and the status-text phrase Not Found.
    The claim's preference order picks the status-text phrase; the code
    never consults the status text once the decoded payload is a string,
    so the message is the synthesized HTTP 404. -/
theorem c5_message_order_cex :
    resp404.statusText = "Not Found"
    ∧ resp404.textBody = some ""
    ∧ errorMessage resp404 = "HTTP 404"
    ∧ ("HTTP 404" : String) ≠ "Not Found"
    ∧ (request initialState optsPlain [FetchBehavior.resolvesAt 0 resp404]).run
        = ⟨CallResult.failure (mkApiError "HTTP 404" 404 (DataVal.strVal "")), 1, []⟩ :=
  ⟨rfl, rfl, rfl, by decide, rfl⟩

/-- C5 (amended): the terminal error of a single-attempt non-2xx call is the
    classified ApiError, which always carries the numeric status and the
    decoded payload; its message is derived as: (1) a non-empty string
    message field of a JSON-decoded object payload; otherwise (2) the
    decoded payload itself when it is a string — the raw text of a non-JSON
    body — taken even when empty, in which case the synthesized
    HTTP status string results without consulting the status text;
    otherwise (3) the status-text phrase when the payload is not a string;
    and (4) the synthesized HTTP status string when the selected message is
    empty. -/
theorem c5_error_message_amended
    (st : ClientState) (opts : ReqOptions) (b : FetchBehavior) (res : Resp)
    (hretry : opts.retry = none)
    (hb : withTimeout (opts.timeoutMs.getD 15000) b = AttemptOutcome.ok res)
    (hfail : respOk res = false) :
    (request st opts [b]).run
      = ⟨CallResult.failure (mkApiError (errorMessage res) res.status (errorData res)), 1, []⟩
    ∧ (mkApiError (errorMessage res) res.status (errorData res)).status = some (res.status : Int)
    ∧ (mkApiError (errorMessage res) res.status (errorData res)).payload = some (errorData res)
    ∧ (∀ fs m, jsIncludes res.contentType "application/json" = true →
        res.jsonBody = some (JsVal.obj fs) → lookupField fs "message" = some (JsVal.str m) →
        m ≠ "" → errorMessage res = m)
    ∧ (∀ s, jsIncludes res.contentType "application/json" = false → res.textBody = some s →
        s ≠ "" → errorMessage res = s)
    ∧ (jsIncludes res.contentType "application/json" = false → res.textBody = some "" →
        errorMessage res = "HTTP " ++ toString res.status)
    ∧ (∀ fs, jsIncludes res.contentType "application/json" = true →
        res.jsonBody = some (JsVal.obj fs) → lookupField fs "message" = none →
        errorMessage res
          = (if res.statusText = "" then "HTTP " ++ toString res.status else res.statusText)) := by
  have hatt1 : (effRetry opts.retry).attempts = 1 := by
    rw [hretry]
    decide
  have hrun : (request st opts [b]).run
      = requestLoop (effRetry opts.retry) (opts.timeoutMs.getD 15000) 1 none [b] := rfl
  refine ⟨?_, rfl, rfl, ?_, ?_, ?_, ?_⟩
  · rw [hrun, requestLoop_single_fail _ _ _ _ hatt1 hb hfail]
  · intro fs m hj hjb hlk hm
    have hjm : jsonMessageField res = some m := by
      unfold jsonMessageField
      rw [if_pos hj]
      simp only [hjb, hlk]
    unfold errorMessage
    rw [hjm]
    simp [hm]
  · intro s hj htb hs
    have hjm : jsonMessageField res = none := by
      unfold jsonMessageField
      rw [if_neg (by simp [hj])]
    have hdata : errorData res = DataVal.strVal s := by
      unfold errorData
      rw [if_neg (by simp [hj])]
      simp only [htb]
    unfold errorMessage
    rw [hjm, hdata]
    simp [dataAsString, hs]
  · intro hj htb
    have hjm : jsonMessageField res = none := by
      unfold jsonMessageField
      rw [if_neg (by simp [hj])]
    have hdata : errorData res = DataVal.strVal "" := by
      unfold errorData
      rw [if_neg (by simp [hj])]
      simp only [htb]
    unfold errorMessage
    rw [hjm, hdata]
    simp [dataAsString]
  · intro fs hj hjb hlk
    have hjm : jsonMessageField res = none := by
      unfold jsonMessageField
      rw [if_pos hj]
      simp only [hjb, hlk]
    have hdata : errorData res = DataVal.jsonVal (JsVal.obj fs) := by
      unfold errorData
      rw [if_pos hj]
      simp only [hjb]
    unfold errorMessage
    rw [hjm, hdata]
    simp [dataAsString]

/-- Witness for C5 (amended): Scenario 6 — a 400 JSON body carrying
    message "Bad stuff happened" surfaces exactly that message, status and
    payload. -/
theorem c5_error_message_witness :
    (request initialState optsPlain [FetchBehavior.resolvesAt 0 resp400msg]).run
      = ⟨CallResult.failure
          (mkApiError (errorMessage resp400msg) resp400msg.status (errorData resp400msg)), 1, []⟩
    ∧ errorMessage resp400msg = "Bad stuff happened"
    ∧ (mkApiError (errorMessage resp400msg) resp400msg.status (errorData resp400msg)).status
        = some ((400 : Nat) : Int) := by
  refine ⟨(c5_error_message_amended initialState optsPlain (FetchBehavior.resolvesAt 0 resp400msg)
      resp400msg rfl rfl rfl).1, ?_, rfl⟩
  exact (c5_error_message_amended initialState optsPlain (FetchBehavior.resolvesAt 0 resp400msg)
      resp400msg rfl rfl rfl).2.2.2.1 [("message", JsVal.str "Bad stuff happened")]
      "Bad stuff happened" rfl rfl rfl (by decide)

/- ### Claim C9 — nonpositive max attempts -/

/-- C9: a retry policy with a nonpositive attempts value is clamped to one
    attempt and the whole call behaves identically to attempts = 1; the
    loop always runs at least once on an available attempt, and the
    trailing unreachable throw after the loop is never the surfaced
    outcome. -/
theorem c9_nonpositive_attempts :
    (∀ st opts script r z, opts.retry = some r → r.attempts = some z → z ≤ 0 →
      request st opts script
        = request st { opts with retry := some { r with attempts := some 1 } } script)
    ∧ (∀ r z, r.attempts = some z → z ≤ 0 → (effRetry (some r)).attempts = 1)
    ∧ (∀ st opts script e, (request st opts script).run.result ≠ CallResult.loopExit e)
    ∧ (∀ st opts b script, 1 ≤ (request st opts (b :: script)).run.invocations) := by
  have heffatt : ∀ r z, r.attempts = some z → z ≤ 0 → (effRetry (some r)).attempts = 1 := by
    intro r z hz hle
    unfold effRetry
    have h1 : ((some r).bind RetryOptions.attempts).getD 1 = z := by
      simp [Option.bind, hz]
    simp only []
    rw [h1, max_eq_left (by omega : z ≤ (1 : Int))]
    rfl
  refine ⟨?_, heffatt, ?_, ?_⟩
  · intro st opts script r z hr hz hle
    have heq : effRetry (some r) = effRetry (some { r with attempts := some 1 }) := by
      unfold effRetry
      have h1 : ((some r).bind RetryOptions.attempts).getD 1 = z := by
        simp [Option.bind, hz]
      have h2 : ((some ({ r with attempts := some 1 } : RetryOptions)).bind
          RetryOptions.attempts).getD 1 = (1 : Int) := by
        simp [Option.bind]
      have h3 : (some r).bind RetryOptions.backoffMs
          = (some ({ r with attempts := some 1 } : RetryOptions)).bind RetryOptions.backoffMs := by
        simp [Option.bind]
      have h4 : (some r).bind RetryOptions.retryOn
          = (some ({ r with attempts := some 1 } : RetryOptions)).bind RetryOptions.retryOn := by
        simp [Option.bind]
      rw [h1, h2, h3, h4, max_eq_left (by omega : z ≤ (1 : Int)), max_self]
    unfold request
    rw [hr, heq]
    rfl
  · intro st opts script e
    have hpos := effRetry_attempts_pos opts.retry
    have hrun : (request st opts script).run
        = requestLoop (effRetry opts.retry) (opts.timeoutMs.getD 15000) 1 none script := rfl
    rw [hrun]
    exact requestLoop_ne_loopExit _ _ script 1 none e (by omega)
  · intro st opts b script
    have hpos := effRetry_attempts_pos opts.retry
    have hrun : (request st opts (b :: script)).run
        = requestLoop (effRetry opts.retry) (opts.timeoutMs.getD 15000) 1 none (b :: script) := rfl
    rw [hrun, requestLoop_cons, if_neg (by omega)]
    cases hw : withTimeout (opts.timeoutMs.getD 15000) b with
    | pending => exact le_refl 1
    | ok res =>
      simp only []
      cases hs : respStep (effRetry opts.retry) 1 res with
      | success v => exact le_refl 1
      | retryAfter d => exact Nat.le_add_left 1 _
      | throwErr e2 =>
        simp only []
        by_cases hcond : 1 < (effRetry opts.retry).attempts
            ∧ isApiErrorLike e2 = false ∧ isAbortError e2 = false
        · rw [if_pos hcond]
          exact Nat.le_add_left 1 _
        · rw [if_neg hcond]
    | err e2 =>
      simp only []
      by_cases hcond : 1 < (effRetry opts.retry).attempts
          ∧ isApiErrorLike e2 = false ∧ isAbortError e2 = false
      · rw [if_pos hcond]
        exact Nat.le_add_left 1 _
      · rw [if_neg hcond]

/-- Witness for C9: attempts = -3 behaves like attempts = 1, is clamped to
    one effective attempt, never surfaces the loop-exit throw, and performs
    an attempt. -/
theorem c9_nonpositive_attempts_witness :
    request initialState optsNeg [FetchBehavior.resolvesAt 0 okResp]
      = request initialState optsNeg1 [FetchBehavior.resolvesAt 0 okResp]
    ∧ (effRetry (some ⟨some (-3), none, none⟩)).attempts = 1
    ∧ (request initialState optsNeg [FetchBehavior.resolvesAt 0 okResp]).run.result
        ≠ CallResult.loopExit readerError
    ∧ 1 ≤ (request initialState optsNeg [FetchBehavior.resolvesAt 0 okResp]).run.invocations :=
  ⟨c9_nonpositive_attempts.1 initialState optsNeg [FetchBehavior.resolvesAt 0 okResp]
      ⟨some (-3), none, none⟩ (-3) rfl rfl (by decide),
   c9_nonpositive_attempts.2.1 ⟨some (-3), none, none⟩ (-3) rfl (by decide),
   c9_nonpositive_attempts.2.2.1 initialState optsNeg [FetchBehavior.resolvesAt 0 okResp]
      readerError,
   c9_nonpositive_attempts.2.2.2 initialState optsNeg (FetchBehavior.resolvesAt 0 okResp) []⟩

end ApiClientModel
